import Mathlib

/-!
Shallow embedding of the `ftx_us_derivs` client core, covering
`src/ws.rs` (wire-message parsing, keepalive echo) and `src/table.rs`
(contract-table normalization and dual indexing).

Modelling conventions:
* Rust `u64`/`u32`/`usize` become `Nat` (no arithmetic in the code can
  overflow the modelled ranges; no wrap-around operations occur).
* Rust `f64` becomes `ℚ`; the only float operations performed by the code
  are casts from integers and division by the exact constants `100.0` and
  `31556926.0`.
* The network connection is modelled as an explicit log of outbound frames,
  so a send is an append to that log.
* Panics (`unwrap`, `unimplemented!`) are modelled as `Except.error` /
  a dedicated `fatal` outcome.
* `serde_json` deserialization is modelled by an executable parser for the
  flat, escape-free JSON objects this protocol exchanges (string, natural
  number, boolean and null values; unknown keys are ignored, as serde does
  by default for these derived structs).
* `chrono` datetime parsing and `Utc::now()` are external-library effects;
  they are parameters of the embedding (`Env`), with parse failure as
  `Option.none` (the source calls `.unwrap()` on the result).
-/

namespace FtxUsDerivs

instance {ε α : Type} [DecidableEq ε] [DecidableEq α] : DecidableEq (Except ε α) := by
  intro a b
  cases a <;> cases b
  case error.error e1 e2 =>
    exact if h : e1 = e2 then .isTrue (by rw [h]) else .isFalse (by simp [h])
  case ok.ok a1 a2 =>
    exact if h : a1 = a2 then .isTrue (by rw [h]) else .isFalse (by simp [h])
  case error.ok e1 a2 => exact .isFalse (by simp)
  case ok.error a1 e2 => exact .isFalse (by simp)

/-! ### Characters used by the JSON model -/

def lbrace : Char := Char.ofNat 123

def rbrace : Char := Char.ofNat 125

def dquote : Char := Char.ofNat 34

/-! ### Minimal JSON value model (serde_json on flat objects) -/

/-- A JSON scalar value, as much of `serde_json`'s data model as the wire
payloads of this protocol use. -/
inductive Jv where
  | jnum (n : Nat)
  | jstr (s : List Char)
  | jbool (b : Bool)
  | jnull
deriving DecidableEq

/-- JSON insignificant whitespace. -/
def isJsonWs (c : Char) : Bool :=
  c = ' ' || c = Char.ofNat 9 || c = Char.ofNat 10 || c = Char.ofNat 13

def skipWs : List Char → List Char
  | [] => []
  | c :: cs => if isJsonWs c then skipWs cs else c :: cs

/-- Scan a string literal body after the opening quote; returns the contents
and the remainder after the closing quote. Escape sequences are outside the
modelled fragment (none occur in this protocol's payloads). -/
def scanStr : List Char → Option (List Char × List Char)
  | [] => none
  | c :: cs =>
    if c = dquote then some ([], cs)
    else
      match scanStr cs with
      | some (s, rest) => some (c :: s, rest)
      | none => none

def scanDigits : List Char → Nat → Nat × List Char
  | [], acc => (acc, [])
  | c :: cs, acc =>
    if c.isDigit then scanDigits cs (acc * 10 + (c.toNat - 48)) else (acc, c :: cs)

/-- Scan a nonnegative integer literal (the only number shape these payloads
carry). -/
def scanNum : List Char → Option (Nat × List Char)
  | [] => none
  | c :: cs =>
    if c.isDigit then some (scanDigits cs (c.toNat - 48)) else none

def headMatch : List Char → List Char → Bool
  | [], _ => true
  | _ :: _, [] => false
  | p :: ps, h :: hs => p = h && headMatch ps hs

/-- Scan one JSON scalar value. -/
def scanVal (l : List Char) : Option (Jv × List Char) :=
  match skipWs l with
  | [] => none
  | c :: cs =>
    if c = dquote then
      match scanStr cs with
      | some (s, rest) => some (Jv.jstr s, rest)
      | none => none
    else if c.isDigit then
      match scanNum (c :: cs) with
      | some (n, rest) => some (Jv.jnum n, rest)
      | none => none
    else if headMatch "true".data (c :: cs) then
      some (Jv.jbool true, (c :: cs).drop 4)
    else if headMatch "false".data (c :: cs) then
      some (Jv.jbool false, (c :: cs).drop 5)
    else if headMatch "null".data (c :: cs) then
      some (Jv.jnull, (c :: cs).drop 4)
    else none

/-- Scan the members of an object, after the opening brace. `fuel` bounds the
recursion by the remaining input length. -/
def scanMembers : Nat → List Char → Option (List (List Char × Jv))
  | 0, _ => none
  | fuel + 1, l =>
    match skipWs l with
    | [] => none
    | c :: cs =>
      if c = dquote then
        match scanStr cs with
        | none => none
        | some (k, r1) =>
          match skipWs r1 with
          | [] => none
          | c2 :: r2 =>
            if c2 = ':' then
              match scanVal r2 with
              | none => none
              | some (v, r3) =>
                match skipWs r3 with
                | [] => none
                | c3 :: r4 =>
                  if c3 = ',' then
                    match scanMembers fuel r4 with
                    | some kvs => some ((k, v) :: kvs)
                    | none => none
                  else if c3 = rbrace then
                    if (skipWs r4).isEmpty then some [(k, v)] else none
                  else none
            else none
      else none

/-- Parse one flat JSON object into its key-value pairs. -/
def parseFlatObj (l : List Char) : Option (List (List Char × Jv)) :=
  match skipWs l with
  | [] => none
  | c :: cs =>
    if c = lbrace then
      match skipWs cs with
      | [] => none
      | c2 :: r =>
        if c2 = rbrace then
          if (skipWs r).isEmpty then some [] else none
        else scanMembers (cs.length + 1) cs
    else none

def jLookup : List (List Char × Jv) → List Char → Option Jv
  | [], _ => none
  | (k0, v) :: rest, k => if k0 = k then some v else jLookup rest k

/-- Look up a required `u64` field of a decoded object. -/
def getNum (kvs : List (List Char × Jv)) (k : String) : Option Nat :=
  match jLookup kvs k.data with
  | some (Jv.jnum n) => some n
  | _ => none

/-! ### src/error.rs -/

/-- Embedding of `WebSocketError` (src/error.rs). -/
inductive WebSocketError where
  | ConnectionError (s : String)
  | MsgParsing (s : String) (line : Nat) (col : Nat)
  | UnknownMsgType (s : String)
  | Misc (s : String)
deriving DecidableEq

/-! ### src/ws.rs data model -/

/-- Embedding of `RawHeartbeat` (src/ws.rs). -/
structure RawHeartbeat where
  timestamp : Nat
  ticks : Nat
  run_id : Nat
  interval_ms : Nat
deriving DecidableEq

/-- Embedding of `RawBookTop` (src/ws.rs). -/
structure RawBookTop where
  bid : Nat
  bid_size : Nat
  ask : Nat
  ask_size : Nat
  contract_id : Nat
  contract_type : Nat
  clock : Nat
deriving DecidableEq

/-- Embedding of `BookTop` (src/ws.rs); the `f64` prices are modelled as `ℚ`. -/
structure BookTop where
  bid : ℚ
  bid_size : Nat
  ask : ℚ
  ask_size : Nat
  contract_id : Nat
  contract_type : Nat
  clock : Nat
deriving DecidableEq

/-- Embedding of `RawBookTop::sanitize` (src/ws.rs lines 146-162):
`bid = (self.bid as f64) / 100.0`, `ask = (self.ask as f64) / 100.0`,
all other fields copied. -/
def RawBookTop.sanitize (r : RawBookTop) : BookTop where
  bid := (r.bid : ℚ) / 100
  bid_size := r.bid_size
  ask := (r.ask : ℚ) / 100
  ask_size := r.ask_size
  contract_id := r.contract_id
  contract_type := r.contract_type
  clock := r.clock

/-- Embedding of `WebSocketMsg` (src/ws.rs). -/
inductive WebSocketMsg where
  | Ping (data : List Nat)
  | Pong
  | BookTop (bt : FtxUsDerivs.BookTop)
  | HeartBeat (hb : RawHeartbeat)
  | UnAuthSuccess
  | SessionID (s : String)
deriving DecidableEq

/-- Embedding of the `websocket` crate's `OwnedMessage` (the wire frames the
transport can deliver). -/
inductive OwnedMessage where
  | Text (s : String)
  | Binary (data : List Nat)
  | Close
  | Ping (data : List Nat)
  | Pong (data : List Nat)
deriving DecidableEq

/-- Outcome of `WebSocketMsgParser::parse`: a `Result` value, or a panic
(the `unimplemented!` arm for frames the protocol does not recognize). -/
inductive ParseResult where
  | ok (m : WebSocketMsg)
  | err (e : WebSocketError)
  | fatal
deriving DecidableEq

/-! ### Rust `str::find` model -/

/-- Model of Rust's `str::find(pattern)`: index of the first occurrence of
`pat` in `hay`, if any. -/
def rustFind (hay pat : List Char) : Option Nat :=
  match hay with
  | [] => if pat = [] then some 0 else none
  | _ :: rest =>
    if headMatch pat hay then some 0
    else (rustFind rest pat).map (· + 1)

/-! ### serde decode of the two structured payloads -/

/-- Model of `RawBookTop::parse` = `serde_json::from_str::<RawBookTop>`
followed by the error mapping of `RawMsg::parse` (src/ws.rs lines 92-96);
the diagnostic text/position of a failure is abstracted to a fixed value. -/
def decodeRawBookTop (s : String) : Except WebSocketError RawBookTop :=
  match parseFlatObj s.data with
  | none => .error (.MsgParsing "json deserialization error" 0 0)
  | some kvs =>
    match getNum kvs "bid", getNum kvs "bid_size", getNum kvs "ask",
        getNum kvs "ask_size", getNum kvs "contract_id",
        getNum kvs "contract_type", getNum kvs "clock" with
    | some b, some bs, some a, some az, some ci, some ct, some ck =>
      .ok ⟨b, bs, a, az, ci, ct, ck⟩
    | _, _, _, _, _, _, _ => .error (.MsgParsing "missing field" 0 0)

/-- Model of `RawHeartbeat::parse` = `serde_json::from_str::<RawHeartbeat>`
with the same error mapping. -/
def decodeRawHeartbeat (s : String) : Except WebSocketError RawHeartbeat :=
  match parseFlatObj s.data with
  | none => .error (.MsgParsing "json deserialization error" 0 0)
  | some kvs =>
    match getNum kvs "timestamp", getNum kvs "ticks", getNum kvs "run_id",
        getNum kvs "interval_ms" with
    | some ts, some tk, some ri, some im => .ok ⟨ts, tk, ri, im⟩
    | _, _, _, _ => .error (.MsgParsing "missing field" 0 0)

/-! ### The parser and the client (src/ws.rs) -/

/-- The literal pattern `"type": "book_top"` searched by src/ws.rs line 62. -/
def bookTopTag : String := "\"type\": \"book_top\""

/-- The literal pattern `"type": "heartbeat"` searched by src/ws.rs line 64. -/
def heartbeatTag : String := "\"type\": \"heartbeat\""

/-- The literal pattern `"type": "unauth_success"` searched by src/ws.rs line 66. -/
def unauthTag : String := "\"type\": \"unauth_success\""

/-- The literal pattern `"type": "meta"` searched by src/ws.rs line 68. -/
def metaTag : String := "\"type\": \"meta\""

/-- Embedding of `WebSocketMsgParser::parse` (src/ws.rs lines 59-85). -/
def WebSocketMsgParser.parse (msg : OwnedMessage) : ParseResult :=
  match msg with
  | .Text s =>
    if (rustFind s.data bookTopTag.data).isSome then
      match decodeRawBookTop s with
      | .ok r => .ok (.BookTop r.sanitize)
      | .error e => .err e
    else if (rustFind s.data heartbeatTag.data).isSome then
      match decodeRawHeartbeat s with
      | .ok r => .ok (.HeartBeat r)
      | .error e => .err e
    else if (rustFind s.data unauthTag.data).isSome then
      .ok .UnAuthSuccess
    else if (rustFind s.data metaTag.data).isSome then
      .ok (.SessionID "unimplemented lol")
    else
      .err (.UnknownMsgType s)
  | .Ping data => .ok (.Ping data)
  | .Pong _ => .ok .Pong
  | _ => .fatal

/-- Embedding of `WebSocketClient::respond_if_ping` (src/ws.rs lines 35-44).
The connection is modelled by the log of outbound frames; `send_message`
appends to it (transport send success assumed, as no claim concerns send
failure). -/
def WebSocketClient.respond_if_ping (outbound : List OwnedMessage)
    (msg : ParseResult) : List OwnedMessage × ParseResult :=
  match msg with
  | .ok (.Ping data) => (outbound ++ [OwnedMessage.Pong data], .ok (.Ping data))
  | r => (outbound, r)

/-- Embedding of `WebSocketClient::yield_msg` (src/ws.rs lines 29-33): the one
wire message the blocking `recv_message` returned is a parameter. -/
def WebSocketClient.yield_msg (received : OwnedMessage)
    (outbound : List OwnedMessage) : List OwnedMessage × ParseResult :=
  WebSocketClient.respond_if_ping outbound (WebSocketMsgParser.parse received)

/-! ### src/table.rs data model -/

/-- Embedding of `RawContractSpec` (src/table.rs lines 159-177). -/
structure RawContractSpec where
  id : Nat
  label : String
  is_call : Option Bool
  active : Bool
  strike_price : Option Nat
  min_increment : Nat
  date_live : String
  date_expires : String
  date_exercise : Option String
  underlying_asset : String
  collateral_asset : String
  derivative_type : String
  open_interest : Option Nat
  is_next_day : Bool
  multiplier : Nat
  is_ecp_only : Bool
deriving DecidableEq

/-- Embedding of `OptionContractSpec` (src/table.rs lines 60-80). `f64`
fields are `ℚ`; the `DateTime<Utc>` fields are their Unix timestamps. -/
structure OptionContractSpec where
  id : Nat
  label : String
  underlying : String
  strike_price : Nat
  is_call : Bool
  tte : ℚ
  open_interest : Nat
  multiplier : ℚ
  min_increment : ℚ
  active : Bool
  date_live : Int
  date_expires : Int
  collateral_asset : String
  is_ecp_only : Bool
deriving DecidableEq, Inhabited

/-- Embedding of `ContractSpec` (src/table.rs lines 37-42); `Future` and
`Swap` wrap the untransformed raw record (`FutureContractSpec(RawContractSpec)`
and `SwapSpec(RawContractSpec)`). -/
inductive ContractSpec where
  | Future (r : RawContractSpec)
  | Option (o : OptionContractSpec)
  | Swap (r : RawContractSpec)
deriving DecidableEq

/-- The numeric id carried by a normalized record (the raw `id` for
`Future`/`Swap`, the copied `id` for `Option`). -/
def ContractSpec.specId : ContractSpec → Nat
  | .Future r => r.id
  | .Option o => o.id
  | .Swap r => r.id

/-- The label carried by a normalized record. -/
def ContractSpec.specLabel : ContractSpec → String
  | .Future r => r.label
  | .Option o => o.label
  | .Swap r => r.label

/-- External-library effects of the normalizer: `Utc::now()` (a fixed build
instant) and `chrono`'s `datetime_from_str` with format
`%Y-%m-%d %H:%M:%S%z` (`none` models a parse failure, on which the source's
`.unwrap()` panics). -/
structure Env where
  now : Int
  parseDatetime : String → Option Int

/-- The `Rc` pointer structure of `ContractSpecTable` (src/table.rs lines
25-29): each `Rc::new` allocation is a cell in `heap`, and both hash maps are
association lists from key to cell index, so that pointer identity is index
equality. -/
structure ContractSpecTable where
  heap : List ContractSpec
  id_table : List (Nat × Nat)
  label_table : List (String × Nat)
deriving DecidableEq

/-! ### HashMap model: association lists with replace-on-insert -/

/-- `HashMap::insert`: replace the value at an existing key, else append. -/
def hmInsert {α β : Type} [DecidableEq α] : List (α × β) → α → β → List (α × β)
  | [], k, v => [(k, v)]
  | (k0, v0) :: rest, k, v =>
    if k0 = k then (k, v) :: rest else (k0, v0) :: hmInsert rest k v

/-- `HashMap` lookup. -/
def hmFind {α β : Type} [DecidableEq α] : List (α × β) → α → Option β
  | [], _ => none
  | (k0, v0) :: rest, k => if k0 = k then some v0 else hmFind rest k

/-! ### The normalizer (src/table.rs lines 109-157) -/

/-- Embedding of the per-record `match i.derivative_type.as_str()` body of
`RawContractSpecTable::sanitize` (src/table.rs lines 121-147). A panic
(`unwrap` on a missing option field, `unwrap` on a datetime chrono cannot
parse, or the `unimplemented!` arm) is an `Except.error`. `tte` is
`years_til_strfdt(&i.date_expires)` = `(expiry - now) / 31556926.0`. -/
def convertRecord (env : Env) (i : RawContractSpec) : Except String ContractSpec :=
  if i.derivative_type = "day_ahead_swap" then .ok (.Swap i)
  else if i.derivative_type = "future_contract" then .ok (.Future i)
  else if i.derivative_type = "options_contract" then
    match i.strike_price, i.is_call, env.parseDatetime i.date_expires,
        env.parseDatetime i.date_live with
    | some sp, some ic, some tsExp, some tsLive =>
      .ok (.Option
        { id := i.id
          label := i.label
          underlying := i.underlying_asset
          strike_price := sp / 100
          is_call := ic
          tte := ((tsExp - env.now : Int) : ℚ) / 31556926
          open_interest := i.open_interest.getD 0
          multiplier := (i.multiplier : ℚ)
          min_increment := (i.min_increment : ℚ) / 100
          active := i.active
          date_live := tsLive
          date_expires := tsExp
          collateral_asset := i.collateral_asset
          is_ecp_only := i.is_ecp_only })
    | _, _, _, _ => .error "panic: unwrap failed on options record"
  else .error "panic: unimplemented derivative_type"

/-- One loop iteration's table updates (src/table.rs lines 149-152): allocate
`Rc::new(out_c)` as a fresh heap cell and insert its index under the record's
id and label. -/
def insertContract (t : ContractSpecTable) (i : Nat) (s : String)
    (c : ContractSpec) : ContractSpecTable where
  heap := t.heap ++ [c]
  id_table := hmInsert t.id_table i t.heap.length
  label_table := hmInsert t.label_table s t.heap.length

/-- The `for i in self.data.into_iter()` loop of
`RawContractSpecTable::sanitize`, with the table built so far as
accumulator. -/
def sanitizeAux (env : Env) : List RawContractSpec → ContractSpecTable →
    Except String ContractSpecTable
  | [], acc => .ok acc
  | i :: rest, acc =>
    match convertRecord env i with
    | .error e => .error e
    | .ok c => sanitizeAux env rest (insertContract acc i.id i.label c)

/-- Embedding of `RawContractSpecTable` (src/table.rs lines 93-96). -/
structure RawContractSpecTable where
  data : List RawContractSpec
deriving DecidableEq

/-- Embedding of `RawContractSpecTable::sanitize` (src/table.rs
lines 109-157), starting from the empty table. -/
def RawContractSpecTable.sanitize (env : Env) (t : RawContractSpecTable) :
    Except String ContractSpecTable :=
  sanitizeAux env t.data ⟨[], [], []⟩

/-! ### Substring occurrence, and correctness of the `str::find` model -/

/-- `pat` occurs in `hay` starting at index `i`. -/
def OccursAt (hay pat : List Char) (i : Nat) : Prop :=
  (hay.drop i).take pat.length = pat ∧ i + pat.length ≤ hay.length

/-- `pat` occurs somewhere in `hay`. -/
def Occurs (hay pat : List Char) : Prop := ∃ i, OccursAt hay pat i

instance (hay pat : List Char) (i : Nat) : Decidable (OccursAt hay pat i) :=
  inferInstanceAs (Decidable (_ ∧ _))

theorem headMatch_iff (pat hay : List Char) :
    headMatch pat hay = true ↔ hay.take pat.length = pat ∧ pat.length ≤ hay.length := by
  induction pat generalizing hay with
  | nil => simp [headMatch]
  | cons p ps ih =>
    cases hay with
    | nil => simp [headMatch]
    | cons h hs =>
      simp only [headMatch, Bool.and_eq_true, decide_eq_true_eq, ih hs, List.take_succ_cons,
        List.length_cons, List.cons.injEq, Nat.succ_le_succ_iff]
      constructor
      · rintro ⟨rfl, h1, h2⟩; exact ⟨⟨rfl, h1⟩, h2⟩
      · rintro ⟨⟨rfl, h1⟩, h2⟩; exact ⟨rfl, h1, h2⟩

theorem occursAt_zero (hay pat : List Char) :
    OccursAt hay pat 0 ↔ headMatch pat hay = true := by
  simp [OccursAt, headMatch_iff]

theorem occursAt_cons_succ (h : Char) (t pat : List Char) (i : Nat) :
    OccursAt (h :: t) pat (i + 1) ↔ OccursAt t pat i := by
  simp [OccursAt, Nat.succ_add, Nat.succ_le_succ_iff]

theorem occurs_cons (h : Char) (t pat : List Char) :
    Occurs (h :: t) pat ↔ headMatch pat (h :: t) = true ∨ Occurs t pat := by
  constructor
  · rintro ⟨i, hi⟩
    cases i with
    | zero => exact Or.inl ((occursAt_zero _ _).mp hi)
    | succ j => exact Or.inr ⟨j, (occursAt_cons_succ _ _ _ _).mp hi⟩
  · rintro (hm | ⟨j, hj⟩)
    · exact ⟨0, (occursAt_zero _ _).mpr hm⟩
    · exact ⟨j + 1, (occursAt_cons_succ _ _ _ _).mpr hj⟩

/-- The `str::find` model succeeds exactly when the pattern occurs in the
haystack. -/
theorem rustFind_isSome_iff (hay pat : List Char) :
    (rustFind hay pat).isSome = true ↔ Occurs hay pat := by
  induction hay with
  | nil =>
    constructor
    · intro h
      unfold rustFind at h
      split at h
      · next hp => exact ⟨0, by simp [OccursAt, hp]⟩
      · simp at h
    · rintro ⟨i, htake, hle⟩
      simp only [List.length_nil, Nat.le_zero] at hle
      have hp : pat.length = 0 := by omega
      have : pat = [] := List.eq_nil_of_length_eq_zero hp
      simp [rustFind, this]
  | cons hd tl ih =>
    by_cases hm : headMatch pat (hd :: tl)
    · simp [rustFind, hm, occurs_cons, hm]
    · have hmap : (Option.map (fun x => x + 1) (rustFind tl pat)).isSome =
          (rustFind tl pat).isSome := by
        cases rustFind tl pat <;> rfl
      have hrw : rustFind (hd :: tl) pat = Option.map (fun x => x + 1) (rustFind tl pat) := by
        simp [rustFind, hm]
      rw [hrw, hmap, ih, occurs_cons]
      simp [hm]

theorem not_occurs_of_find_none {hay pat : List Char}
    (h : rustFind hay pat = none) : ¬ Occurs hay pat := by
  intro hc
  have := (rustFind_isSome_iff hay pat).mpr hc
  rw [h] at this
  simp at this

/-! ### Concrete payloads used by closed statements -/

/-- The spec's end-to-end `book_top` payload, exactly as written there
(compact JSON, no space after the colons). -/
def c2Compact : String := "\x7b\"type\":\"book_top\",\"bid\":10050,\"bid_size\":3,\"ask\":10100,\"ask_size\":5,\"contract_id\":7,\"contract_type\":1,\"clock\":42\x7d"

/-- The same `book_top` payload with a space after each colon, which is the
shape the parser's literal tag pattern actually requires. -/
def c2Spaced : String := "\x7b\"type\": \"book_top\", \"bid\": 10050, \"bid_size\": 3, \"ask\": 10100, \"ask_size\": 5, \"contract_id\": 7, \"contract_type\": 1, \"clock\": 42\x7d"

/-- A `meta` payload carrying a session id. -/
def metaPayload : String := "\x7b\"type\": \"meta\", \"session_id\": \"abc\"\x7d"

/-- A `book_top` payload whose prices are not whole display units:
bid 1 (= 0.01) and ask 250 (= 2.50). -/
def c7Payload : String := "\x7b\"type\": \"book_top\", \"bid\": 1, \"bid_size\": 0, \"ask\": 250, \"ask_size\": 0, \"contract_id\": 0, \"contract_type\": 0, \"clock\": 0\x7d"

/-! ### Claim theorems about src/ws.rs -/

/-- C1: for every ping payload `P` received over the connection, `yield_msg`
sends a pong frame carrying exactly the bytes `P` back over the same
connection before it returns, and it still returns the `Ping P` event to the
caller (the echo is a side effect, not a substitution). -/
theorem yield_msg_echoes_ping (P : List Nat) (outbound : List OwnedMessage) :
    WebSocketClient.yield_msg (.Ping P) outbound =
      (outbound ++ [OwnedMessage.Pong P], .ok (.Ping P)) := rfl

/-- Does the parse result hold a successfully decoded `Ping`? -/
def isOkPing : ParseResult → Bool
  | .ok (.Ping _) => true
  | _ => false

theorem respond_if_ping_no_send (outbound : List OwnedMessage) (r : ParseResult)
    (h : isOkPing r = false) :
    WebSocketClient.respond_if_ping outbound r = (outbound, r) := by
  cases r with
  | ok mm => cases mm <;> simp_all [WebSocketClient.respond_if_ping, isOkPing]
  | err e => rfl
  | fatal => rfl

/-- C10: `yield_msg` writes an outbound frame only when the received message
decodes successfully to a `Ping`; on a parse error or any non-`Ping` event no
frame is written and the parse result is returned to the caller unchanged. -/
theorem yield_msg_sends_only_on_ping (m : OwnedMessage) (outbound : List OwnedMessage)
    (h : isOkPing (WebSocketMsgParser.parse m) = false) :
    WebSocketClient.yield_msg m outbound = (outbound, WebSocketMsgParser.parse m) :=
  respond_if_ping_no_send outbound (WebSocketMsgParser.parse m) h

/-- C10 witness: a text payload that decodes to a parse error produces no
outbound frame and is handed back unchanged. -/
theorem yield_msg_sends_only_on_ping_witness :
    WebSocketClient.yield_msg (.Text "nope") [] = ([], WebSocketMsgParser.parse (.Text "nope")) :=
  yield_msg_sends_only_on_ping (.Text "nope") [] (by decide)

set_option maxRecDepth 10000 in
/-- C2 counterexample: on the spec's compact end-to-end payload (no space
after the colons) the parser finds none of its literal tag patterns and
returns `UnknownMsgType` with the original payload, not a `BookTop` event. -/
theorem parse_compact_booktop_unknown :
    WebSocketMsgParser.parse (.Text c2Compact) = .err (.UnknownMsgType c2Compact) := by
  decide

set_option maxRecDepth 10000 in
/-- C2 (amended): parsing the payload
`{"type": "book_top", "bid": 10050, ..., "clock": 42}` written with a space
after each colon (the shape the parser's literal tag pattern requires)
produces a `BookTop` event with bid = 201/2 = 100.50 and ask = 101.00. -/
theorem parse_spaced_booktop_payload :
    WebSocketMsgParser.parse (.Text c2Spaced) =
      .ok (.BookTop ⟨201 / 2, 3, 101, 5, 7, 1, 42⟩) := by
  have hfind : (rustFind c2Spaced.data bookTopTag.data).isSome = true := by decide
  have hdec : decodeRawBookTop c2Spaced = .ok ⟨10050, 3, 10100, 5, 7, 1, 42⟩ := by decide
  simp only [WebSocketMsgParser.parse, hfind, if_true, hdec]
  simp only [RawBookTop.sanitize]
  norm_num

set_option maxRecDepth 10000 in
/-- C6 (code-bug evidence): on a `meta` payload carrying session id `"abc"`
the parser neither decodes the session id nor reports the decode as
unsupported: it returns a successful `SessionID` event fabricated from the
constant string `"unimplemented lol"`. -/
theorem parse_meta_fabricates_session_id :
    WebSocketMsgParser.parse (.Text metaPayload) = .ok (.SessionID "unimplemented lol") := by
  decide

/-- C7: for every text payload in which the `book_top` tag pattern occurs and
which deserializes to a raw record with wire bid integer `B` and wire ask
integer `A`, the parsed event is a `BookTop` whose bid is exactly `B / 100`
and whose ask is exactly `A / 100` (prices modelled in `ℚ`, where division by
100 is exact; this is the fixed-point to fractional conversion). -/
theorem booktop_prices_exact (s : String) (r : RawBookTop)
    (hocc : Occurs s.data bookTopTag.data)
    (hdec : decodeRawBookTop s = .ok r) :
    WebSocketMsgParser.parse (.Text s) =
      .ok (.BookTop
        { bid := (r.bid : ℚ) / 100
          bid_size := r.bid_size
          ask := (r.ask : ℚ) / 100
          ask_size := r.ask_size
          contract_id := r.contract_id
          contract_type := r.contract_type
          clock := r.clock }) := by
  have hb : (rustFind s.data bookTopTag.data).isSome = true :=
    (rustFind_isSome_iff _ _).mpr hocc
  simp only [WebSocketMsgParser.parse, hb, if_true, hdec, RawBookTop.sanitize]

set_option maxRecDepth 10000 in
/-- C7 witness: on a concrete payload with wire bid 1 and wire ask 250 the
decoded prices are exactly 1/100 and 250/100. -/
theorem booktop_prices_exact_witness :
    Occurs c7Payload.data bookTopTag.data ∧
    decodeRawBookTop c7Payload = .ok ⟨1, 0, 250, 0, 0, 0, 0⟩ ∧
    WebSocketMsgParser.parse (.Text c7Payload) =
      .ok (.BookTop ⟨(1 : ℚ) / 100, 0, (250 : ℚ) / 100, 0, 0, 0, 0⟩) :=
  ⟨⟨1, by decide⟩, by decide,
    booktop_prices_exact c7Payload ⟨1, 0, 250, 0, 0, 0, 0⟩ ⟨1, by decide⟩ (by decide)⟩

/-- C5 counterexample: the payload `book_top` contains the bare type tag
`book_top` as a substring, yet the parser does not run the `book_top` decode
path: it returns `UnknownMsgType`, because the substring it actually searches
for is the longer pattern `"type": "book_top"`. -/
theorem bare_tag_not_classified :
    Occurs "book_top".data "book_top".data ∧
    WebSocketMsgParser.parse (.Text "book_top") = .err (.UnknownMsgType "book_top") :=
  ⟨⟨0, by decide⟩, by decide⟩

/-- C5 (amended): the parser classifies a text payload by searching for the
literal substrings `"type": "book_top"`, `"type": "heartbeat"`,
`"type": "unauth_success"`, `"type": "meta"` — each including the quoted
`type` key, the colon and one space — in that priority order; the first one
that occurs in the payload determines the decode path; if none of the four
occurs, `parse` returns an `UnknownMsgType` error containing the original
payload text; on a text payload it never reaches the fatal
`unimplemented!` arm. -/
theorem parse_text_classification (s : String) :
    (WebSocketMsgParser.parse (.Text s) ≠ .fatal) ∧
    (Occurs s.data bookTopTag.data →
      WebSocketMsgParser.parse (.Text s) =
        (match decodeRawBookTop s with
          | .ok r => .ok (.BookTop r.sanitize)
          | .error e => .err e)) ∧
    (¬ Occurs s.data bookTopTag.data → Occurs s.data heartbeatTag.data →
      WebSocketMsgParser.parse (.Text s) =
        (match decodeRawHeartbeat s with
          | .ok r => .ok (.HeartBeat r)
          | .error e => .err e)) ∧
    (¬ Occurs s.data bookTopTag.data → ¬ Occurs s.data heartbeatTag.data →
      Occurs s.data unauthTag.data →
      WebSocketMsgParser.parse (.Text s) = .ok .UnAuthSuccess) ∧
    (¬ Occurs s.data bookTopTag.data → ¬ Occurs s.data heartbeatTag.data →
      ¬ Occurs s.data unauthTag.data → Occurs s.data metaTag.data →
      WebSocketMsgParser.parse (.Text s) = .ok (.SessionID "unimplemented lol")) ∧
    (¬ Occurs s.data bookTopTag.data → ¬ Occurs s.data heartbeatTag.data →
      ¬ Occurs s.data unauthTag.data → ¬ Occurs s.data metaTag.data →
      WebSocketMsgParser.parse (.Text s) = .err (.UnknownMsgType s)) := by
  have hb := rustFind_isSome_iff s.data bookTopTag.data
  have hh := rustFind_isSome_iff s.data heartbeatTag.data
  have hu := rustFind_isSome_iff s.data unauthTag.data
  have hm := rustFind_isSome_iff s.data metaTag.data
  refine ⟨?_, ?_, ?_, ?_, ?_, ?_⟩
  · simp only [WebSocketMsgParser.parse]
    split_ifs <;> first
      | (split <;> simp)
      | simp
  · intro h1
    simp only [WebSocketMsgParser.parse]
    rw [if_pos (hb.mpr h1)]
  · intro h1 h2
    have hb' : ¬ (rustFind s.data bookTopTag.data).isSome = true := fun hx => h1 (hb.mp hx)
    simp only [WebSocketMsgParser.parse]
    rw [if_neg hb', if_pos (hh.mpr h2)]
  · intro h1 h2 h3
    have hb' : ¬ (rustFind s.data bookTopTag.data).isSome = true := fun hx => h1 (hb.mp hx)
    have hh' : ¬ (rustFind s.data heartbeatTag.data).isSome = true := fun hx => h2 (hh.mp hx)
    simp only [WebSocketMsgParser.parse]
    rw [if_neg hb', if_neg hh', if_pos (hu.mpr h3)]
  · intro h1 h2 h3 h4
    have hb' : ¬ (rustFind s.data bookTopTag.data).isSome = true := fun hx => h1 (hb.mp hx)
    have hh' : ¬ (rustFind s.data heartbeatTag.data).isSome = true := fun hx => h2 (hh.mp hx)
    have hu' : ¬ (rustFind s.data unauthTag.data).isSome = true := fun hx => h3 (hu.mp hx)
    simp only [WebSocketMsgParser.parse]
    rw [if_neg hb', if_neg hh', if_neg hu', if_pos (hm.mpr h4)]
  · intro h1 h2 h3 h4
    have hb' : ¬ (rustFind s.data bookTopTag.data).isSome = true := fun hx => h1 (hb.mp hx)
    have hh' : ¬ (rustFind s.data heartbeatTag.data).isSome = true := fun hx => h2 (hh.mp hx)
    have hu' : ¬ (rustFind s.data unauthTag.data).isSome = true := fun hx => h3 (hu.mp hx)
    have hm' : ¬ (rustFind s.data metaTag.data).isSome = true := fun hx => h4 (hm.mp hx)
    simp only [WebSocketMsgParser.parse]
    rw [if_neg hb', if_neg hh', if_neg hu', if_neg hm']

/-- C5 witness: the payload `hello` contains none of the four tag patterns
and parses to `UnknownMsgType "hello"`. -/
theorem parse_text_classification_witness :
    WebSocketMsgParser.parse (.Text "hello") = .err (.UnknownMsgType "hello") :=
  (parse_text_classification "hello").2.2.2.2.2
    (not_occurs_of_find_none (by decide)) (not_occurs_of_find_none (by decide))
    (not_occurs_of_find_none (by decide)) (not_occurs_of_find_none (by decide))

/-! ### HashMap model lemmas -/

theorem hmFind_insert_self {α β : Type} [DecidableEq α] (m : List (α × β)) (k : α) (v : β) :
    hmFind (hmInsert m k v) k = some v := by
  induction m with
  | nil => simp [hmInsert, hmFind]
  | cons p rest ih =>
    obtain ⟨k0, v0⟩ := p
    by_cases h : k0 = k <;> simp [hmInsert, hmFind, h, ih]

theorem hmFind_insert_ne {α β : Type} [DecidableEq α] (m : List (α × β)) (k k' : α) (v : β)
    (h : k' ≠ k) : hmFind (hmInsert m k v) k' = hmFind m k' := by
  have hne : ¬ k = k' := fun hh => h hh.symm
  induction m with
  | nil => simp [hmInsert, hmFind, hne]
  | cons p rest ih =>
    obtain ⟨k0, v0⟩ := p
    by_cases h0 : k0 = k
    · subst h0
      simp [hmInsert, hmFind, hne]
    · by_cases h1 : k0 = k' <;> simp [hmInsert, hmFind, h0, h1, hne, h, ih]

theorem hmInsert_mem {α β : Type} [DecidableEq α] (m : List (α × β)) (k : α) (v : β)
    (p : α × β) (h : p ∈ hmInsert m k v) : p = (k, v) ∨ p ∈ m := by
  induction m with
  | nil => simpa [hmInsert] using h
  | cons q rest ih =>
    obtain ⟨k0, v0⟩ := q
    by_cases h0 : k0 = k
    · simp only [hmInsert, h0, if_true] at h
      rcases List.mem_cons.mp h with h1 | h1
      · exact Or.inl h1
      · exact Or.inr (List.mem_cons_of_mem _ h1)
    · simp only [hmInsert, h0, if_false] at h
      rcases List.mem_cons.mp h with h1 | h1
      · exact Or.inr (List.mem_cons.mpr (Or.inl h1))
      · rcases ih h1 with h2 | h2
        · exact Or.inl h2
        · exact Or.inr (List.mem_cons_of_mem _ h2)

/-! ### Normalizer loop lemmas -/

theorem sanitizeAux_heap_ext (env : Env) (l : List RawContractSpec)
    (acc out : ContractSpecTable) (h : sanitizeAux env l acc = .ok out) :
    ∃ ext, out.heap = acc.heap ++ ext := by
  induction l generalizing acc with
  | nil =>
    simp only [sanitizeAux, Except.ok.injEq] at h
    exact ⟨[], by rw [h]; simp⟩
  | cons i rest ih =>
    rw [sanitizeAux] at h
    cases hc : convertRecord env i with
    | error e => rw [hc] at h; exact absurd h (by simp)
    | ok c =>
      rw [hc] at h
      obtain ⟨ext, hx⟩ := ih _ h
      exact ⟨c :: ext, by rw [hx]; simp [insertContract]⟩

theorem sanitizeAux_id_untouched (env : Env) (l : List RawContractSpec)
    (acc out : ContractSpecTable) (k : Nat) (h : sanitizeAux env l acc = .ok out)
    (hk : ∀ r ∈ l, r.id ≠ k) :
    hmFind out.id_table k = hmFind acc.id_table k := by
  induction l generalizing acc with
  | nil =>
    simp only [sanitizeAux, Except.ok.injEq] at h
    rw [h]
  | cons i rest ih =>
    rw [sanitizeAux] at h
    cases hc : convertRecord env i with
    | error e => rw [hc] at h; exact absurd h (by simp)
    | ok c =>
      rw [hc] at h
      have hne : k ≠ i.id := fun hh => hk i (List.mem_cons_self _ _) hh.symm
      rw [ih _ h (fun r hr => hk r (List.mem_cons_of_mem _ hr))]
      simp [insertContract, hmFind_insert_ne _ _ _ _ hne]

theorem sanitizeAux_label_untouched (env : Env) (l : List RawContractSpec)
    (acc out : ContractSpecTable) (k : String) (h : sanitizeAux env l acc = .ok out)
    (hk : ∀ r ∈ l, r.label ≠ k) :
    hmFind out.label_table k = hmFind acc.label_table k := by
  induction l generalizing acc with
  | nil =>
    simp only [sanitizeAux, Except.ok.injEq] at h
    rw [h]
  | cons i rest ih =>
    rw [sanitizeAux] at h
    cases hc : convertRecord env i with
    | error e => rw [hc] at h; exact absurd h (by simp)
    | ok c =>
      rw [hc] at h
      have hne : k ≠ i.label := fun hh => hk i (List.mem_cons_self _ _) hh.symm
      rw [ih _ h (fun r hr => hk r (List.mem_cons_of_mem _ hr))]
      simp [insertContract, hmFind_insert_ne _ _ _ _ hne]

theorem convertRecord_keys (env : Env) (i : RawContractSpec) (c : ContractSpec)
    (h : convertRecord env i = .ok c) : c.specId = i.id ∧ c.specLabel = i.label := by
  unfold convertRecord at h
  split_ifs at h with h1 h2 h3
  · simp only [Except.ok.injEq] at h
    subst h
    exact ⟨rfl, rfl⟩
  · simp only [Except.ok.injEq] at h
    subst h
    exact ⟨rfl, rfl⟩
  · split at h <;> first
      | (simp only [Except.ok.injEq] at h; subst h; exact ⟨rfl, rfl⟩)
      | simp at h

theorem sanitizeAux_dual_index (env : Env) (l : List RawContractSpec) :
    ∀ acc out, (l.map RawContractSpec.id).Nodup → (l.map RawContractSpec.label).Nodup →
      sanitizeAux env l acc = .ok out →
      ∀ r ∈ l, ∃ j c, convertRecord env r = .ok c ∧ out.heap.get? j = some c ∧
        hmFind out.id_table r.id = some j ∧ hmFind out.label_table r.label = some j := by
  induction l with
  | nil =>
    intro acc out _ _ _ r hr
    exact absurd hr (List.not_mem_nil r)
  | cons i rest ih =>
    intro acc out hid hlab h r hr
    simp only [List.map_cons, List.nodup_cons] at hid hlab
    obtain ⟨hid1, hid2⟩ := hid
    obtain ⟨hlab1, hlab2⟩ := hlab
    rw [sanitizeAux] at h
    cases hc : convertRecord env i with
    | error e => rw [hc] at h; exact absurd h (by simp)
    | ok c =>
      rw [hc] at h
      rcases List.mem_cons.mp hr with rfl | hmem
      · refine ⟨acc.heap.length, c, hc, ?_, ?_, ?_⟩
        · obtain ⟨ext, hx⟩ := sanitizeAux_heap_ext env rest _ out h
          simp only [insertContract] at hx
          rw [hx, List.append_assoc, List.get?_append_right (le_refl _), Nat.sub_self]
          rfl
        · have hunt := sanitizeAux_id_untouched env rest _ out r.id h
            (fun r' hr' hh => hid1 (hh ▸ List.mem_map_of_mem _ hr'))
          rw [hunt]
          simp [insertContract, hmFind_insert_self]
        · have hunt := sanitizeAux_label_untouched env rest _ out r.label h
            (fun r' hr' hh => hlab1 (hh ▸ List.mem_map_of_mem _ hr'))
          rw [hunt]
          simp [insertContract, hmFind_insert_self]
      · exact ih _ out hid2 hlab2 h r hmem

/-- C4 (amended): provided the ids of the raw records are pairwise distinct
and their labels are pairwise distinct, every contract of the source data is
reachable from the id index under its id and from the label index under its
label, and both lookups resolve to the identically same heap cell (the model
of `Rc` pointer identity). Without the distinctness proviso this fails: a
later record overwrites the index entries of an earlier one with the same
key (see the counterexample). -/
theorem table_dual_index (env : Env) (t : RawContractSpecTable) (out : ContractSpecTable)
    (hid : (t.data.map RawContractSpec.id).Nodup)
    (hlab : (t.data.map RawContractSpec.label).Nodup)
    (hok : t.sanitize env = .ok out) :
    ∀ r ∈ t.data, ∃ j c, convertRecord env r = .ok c ∧ out.heap.get? j = some c ∧
      hmFind out.id_table r.id = some j ∧ hmFind out.label_table r.label = some j :=
  sanitizeAux_dual_index env t.data ⟨[], [], []⟩ out hid hlab hok

/-- Key-consistency invariant of a built table: every id-index entry points
at a heap cell carrying that id, and every label-index entry points at a
heap cell carrying that label. -/
def TableInv (t : ContractSpecTable) : Prop :=
  (∀ p ∈ t.id_table, ∃ c, t.heap.get? p.2 = some c ∧ c.specId = p.1) ∧
  (∀ q ∈ t.label_table, ∃ c, t.heap.get? q.2 = some c ∧ c.specLabel = q.1)

theorem tableInv_insert (acc : ContractSpecTable) (k : Nat) (s : String)
    (c : ContractSpec) (hinv : TableInv acc) (hcid : c.specId = k)
    (hclab : c.specLabel = s) : TableInv (insertContract acc k s c) := by
  obtain ⟨h1, h2⟩ := hinv
  constructor
  · intro p hp
    simp only [insertContract] at hp ⊢
    rcases hmInsert_mem _ _ _ p hp with rfl | hmem
    · refine ⟨c, ?_, hcid⟩
      rw [List.get?_append_right (le_refl _), Nat.sub_self]
      rfl
    · obtain ⟨c0, hc0, hcid0⟩ := h1 p hmem
      obtain ⟨hlt, _⟩ := List.get?_eq_some.mp hc0
      exact ⟨c0, by rw [List.get?_append hlt]; exact hc0, hcid0⟩
  · intro q hq
    simp only [insertContract] at hq ⊢
    rcases hmInsert_mem _ _ _ q hq with rfl | hmem
    · refine ⟨c, ?_, hclab⟩
      rw [List.get?_append_right (le_refl _), Nat.sub_self]
      rfl
    · obtain ⟨c0, hc0, hclab0⟩ := h2 q hmem
      obtain ⟨hlt, _⟩ := List.get?_eq_some.mp hc0
      exact ⟨c0, by rw [List.get?_append hlt]; exact hc0, hclab0⟩

theorem tableInv_sanitizeAux (env : Env) (l : List RawContractSpec) :
    ∀ acc out, TableInv acc → sanitizeAux env l acc = .ok out → TableInv out := by
  induction l with
  | nil =>
    intro acc out hinv h
    simp only [sanitizeAux, Except.ok.injEq] at h
    exact h ▸ hinv
  | cons i rest ih =>
    intro acc out hinv h
    rw [sanitizeAux] at h
    cases hc : convertRecord env i with
    | error e => rw [hc] at h; exact absurd h (by simp)
    | ok c =>
      rw [hc] at h
      obtain ⟨hcid, hclab⟩ := convertRecord_keys env i c hc
      exact ih _ out (tableInv_insert acc i.id i.label c hinv hcid hclab) h

/-- C9: in the built reference table, every entry `(k, c)` of the id index
satisfies `c.specId = k` and every entry `(l, c)` of the label index
satisfies `c.specLabel = l` — for all three variants, since `Future`/`Swap`
wrap the raw record whose id and label were used as the insertion keys. -/
theorem table_keys_consistent (env : Env) (t : RawContractSpecTable)
    (out : ContractSpecTable) (hok : t.sanitize env = .ok out) : TableInv out :=
  tableInv_sanitizeAux env t.data ⟨[], [], []⟩ out
    ⟨fun p hp => absurd hp (List.not_mem_nil p),
      fun q hq => absurd hq (List.not_mem_nil q)⟩ hok

theorem convertRecord_unknown_tag (env : Env) (i : RawContractSpec)
    (h1 : i.derivative_type ≠ "day_ahead_swap")
    (h2 : i.derivative_type ≠ "future_contract")
    (h3 : i.derivative_type ≠ "options_contract") :
    convertRecord env i = .error "panic: unimplemented derivative_type" := by
  unfold convertRecord
  rw [if_neg h1, if_neg h2, if_neg h3]

theorem sanitizeAux_unknown_tag (env : Env) (l : List RawContractSpec) :
    ∀ acc, (∃ r ∈ l, r.derivative_type ∉
        (["day_ahead_swap", "future_contract", "options_contract"] : List String)) →
      ∃ e, sanitizeAux env l acc = .error e := by
  induction l with
  | nil =>
    rintro acc ⟨r, hr, _⟩
    exact absurd hr (List.not_mem_nil r)
  | cons i rest ih =>
    rintro acc ⟨r, hr, hbad⟩
    cases hc : convertRecord env i with
    | error e => exact ⟨e, by rw [sanitizeAux, hc]⟩
    | ok c =>
      rcases List.mem_cons.mp hr with rfl | hmem
      · exfalso
        have hne1 : r.derivative_type ≠ "day_ahead_swap" := fun hh => hbad (by simp [hh])
        have hne2 : r.derivative_type ≠ "future_contract" := fun hh => hbad (by simp [hh])
        have hne3 : r.derivative_type ≠ "options_contract" := fun hh => hbad (by simp [hh])
        have herr := convertRecord_unknown_tag env r hne1 hne2 hne3
        rw [hc] at herr
        exact absurd herr (by simp)
      · obtain ⟨e, he⟩ := ih (insertContract acc i.id i.label c) ⟨r, hmem, hbad⟩
        exact ⟨e, by rw [sanitizeAux, hc]; exact he⟩

/-- C8: for every raw contract table containing a record whose
`derivative_type` tag is none of `"day_ahead_swap"`, `"future_contract"`,
`"options_contract"`, the normalizer halts with the fatal `unimplemented!`
condition (modelled as `Except.error`): it produces no table at all, so it
neither skips the record nor substitutes a default variant. -/
theorem sanitize_halts_on_unknown_tag (env : Env) (t : RawContractSpecTable)
    (h : ∃ r ∈ t.data, r.derivative_type ∉
        (["day_ahead_swap", "future_contract", "options_contract"] : List String)) :
    ∃ e, t.sanitize env = .error e :=
  sanitizeAux_unknown_tag env t.data ⟨[], [], []⟩ h

/-- C3 (amended): for every raw record that normalizes to the `Option`
variant with wire strike price `S` (hundredths), the normalized
`strike_price` is the integer truncation `S / 100` (Rust integer division;
it equals the exact quotient only when `S` is a multiple of 100), while
`min_increment` is the exact quotient `M / 100` computed in the price field
(`f64`, modelled as `ℚ`). -/
theorem option_record_normalization (env : Env) (i : RawContractSpec) (S : Nat)
    (o : OptionContractSpec) (hsp : i.strike_price = some S)
    (hok : convertRecord env i = .ok (.Option o)) :
    o.strike_price = S / 100 ∧ o.min_increment = (i.min_increment : ℚ) / 100 := by
  unfold convertRecord at hok
  split_ifs at hok with h1 h2 h3
  · simp at hok
  · simp at hok
  · rw [hsp] at hok
    split at hok
    · rename_i sp ic tsExp tsLive he1 he2 he3 he4
      obtain rfl : S = sp := Option.some.inj he1
      simp only [Except.ok.injEq, ContractSpec.Option.injEq] at hok
      subst hok
      exact ⟨rfl, rfl⟩
    · simp at hok

/-! ### Concrete records and tables used by closed statements -/

/-- Environment with the build instant at epoch 0 and a datetime parser that
accepts every string as timestamp 0. -/
def env0 : Env := ⟨0, fun _ => some 0⟩

/-- A `day_ahead_swap` raw record with the given id and label. -/
def swapRec (n : Nat) (lab : String) : RawContractSpec where
  id := n
  label := lab
  is_call := none
  active := true
  strike_price := none
  min_increment := 25
  date_live := "2022-01-01 00:00:00+0000"
  date_expires := "2022-01-02 00:00:00+0000"
  date_exercise := none
  underlying_asset := "CBTC"
  collateral_asset := "CBTC"
  derivative_type := "day_ahead_swap"
  open_interest := none
  is_next_day := true
  multiplier := 100
  is_ecp_only := false

/-- An `options_contract` raw record with the given wire strike price. -/
def optRec (sp : Nat) : RawContractSpec where
  id := 9
  label := "BTC-call"
  is_call := some true
  active := true
  strike_price := some sp
  min_increment := 25
  date_live := "2022-01-01 00:00:00+0000"
  date_expires := "2023-01-01 00:00:00+0000"
  date_exercise := some "2023-01-01 00:00:00+0000"
  underlying_asset := "CBTC"
  collateral_asset := "USD"
  derivative_type := "options_contract"
  open_interest := some 2
  is_next_day := false
  multiplier := 100
  is_ecp_only := false

/-- Projection of the normalized strike price out of a conversion result. -/
def optStrikeOf : Except String ContractSpec → Option Nat
  | .ok (.Option o) => some o.strike_price
  | _ => none

/-- C3 counterexample: a record with wire strike price 10050 (i.e. 100.50
display units) normalizes to integer strike price 100, which is not the
exact quotient 10050 / 100 = 100.5; so `strike_price = S/100` fails as an
exact equation. -/
theorem strike_price_truncated :
    optStrikeOf (convertRecord env0 (optRec 10050)) = some 100 ∧
    ((100 : ℚ) ≠ (10050 : ℚ) / 100) :=
  ⟨by decide, by norm_num⟩

/-- The `Option` record produced by normalizing `optRec 200`. -/
def oWitness : OptionContractSpec :=
  match convertRecord env0 (optRec 200) with
  | .ok (.Option o) => o
  | _ => default

/-- C3 witness: on a record with wire strike 200 and wire minimum increment
25 the normalized strike is 200 / 100 = 2 and the normalized minimum
increment is exactly 25/100. -/
theorem option_record_normalization_witness :
    (optRec 200).strike_price = some 200 ∧
    convertRecord env0 (optRec 200) = .ok (.Option oWitness) ∧
    (oWitness.strike_price = 200 / 100 ∧
      oWitness.min_increment = ((optRec 200).min_increment : ℚ) / 100) :=
  ⟨rfl, rfl, option_record_normalization env0 (optRec 200) 200 oWitness rfl rfl⟩

/-- A one-record table and the reference table its normalization builds. -/
def t0 : RawContractSpecTable := ⟨[swapRec 1 "A"]⟩

/-- The table built from `t0`: one heap cell, indexed from both maps. -/
def out0 : ContractSpecTable := ⟨[.Swap (swapRec 1 "A")], [(1, 0)], [("A", 0)]⟩

/-- C4 witness: on a table with one swap record both indices resolve the
record to the same heap cell. -/
theorem table_dual_index_witness :
    ((t0.data.map RawContractSpec.id).Nodup ∧
      (t0.data.map RawContractSpec.label).Nodup ∧
      t0.sanitize env0 = .ok out0) ∧
    (∃ j c, convertRecord env0 (swapRec 1 "A") = .ok c ∧ out0.heap.get? j = some c ∧
      hmFind out0.id_table (swapRec 1 "A").id = some j ∧
      hmFind out0.label_table (swapRec 1 "A").label = some j) :=
  ⟨⟨by decide, by decide, by decide⟩,
    table_dual_index env0 t0 out0 (by decide) (by decide) (by decide)
      (swapRec 1 "A") (by decide)⟩

/-- A table with two swap records sharing id 1 under labels `A` and `B`. -/
def t1 : RawContractSpecTable := ⟨[swapRec 1 "A", swapRec 1 "B"]⟩

/-- The table built from `t1`: the second insert overwrote the id entry. -/
def out1 : ContractSpecTable :=
  ⟨[.Swap (swapRec 1 "A"), .Swap (swapRec 1 "B")], [(1, 1)], [("A", 0), ("B", 1)]⟩

/-- C4 counterexample: with two records sharing id 1, the first record
(label `A`) resolves to heap cell 0 through the label index but its id
resolves to heap cell 1 (the second record's cell), so the two lookups do
not reach the identically same record. -/
theorem dual_index_diverges_on_duplicate_id :
    t1.sanitize env0 = .ok out1 ∧
    hmFind out1.label_table (swapRec 1 "A").label = some 0 ∧
    hmFind out1.id_table (swapRec 1 "A").id = some 1 ∧
    hmFind out1.id_table (swapRec 1 "A").id ≠
      hmFind out1.label_table (swapRec 1 "A").label :=
  ⟨by decide, by decide, by decide, by decide⟩

/-- C9 witness: the invariant holds on the table built from `t0`. -/
theorem table_keys_consistent_witness :
    t0.sanitize env0 = .ok out0 ∧ TableInv out0 :=
  ⟨by decide, table_keys_consistent env0 t0 out0 (by decide)⟩

/-- A raw record with an unhandled derivative type tag. -/
def badRec : RawContractSpec :=
  { swapRec 7 "X" with derivative_type := "perpetual_swap" }

/-- A table containing the unhandled record. -/
def t2 : RawContractSpecTable := ⟨[badRec]⟩

/-- C8 witness: a table with a `perpetual_swap` record makes the whole
normalization halt with an error. -/
theorem sanitize_halts_on_unknown_tag_witness :
    (∃ r ∈ t2.data, r.derivative_type ∉
        (["day_ahead_swap", "future_contract", "options_contract"] : List String)) ∧
    (∃ e, t2.sanitize env0 = .error e) :=
  ⟨by decide, sanitize_halts_on_unknown_tag env0 t2 (by decide)⟩

end FtxUsDerivs
